import Mathlib

/-!
Shallow embedding of `pdf2docx/text/TextBlock.py` (class `TextBlock`).

Conventions of the embedding:
* Python floats are modelled by `ℚ`: every claim is about branch/arithmetic
  logic, not floating-point rounding.
* A bounding box is the 4-tuple `(x0, y0, x1, y1)`; Python's `bbox[i]`
  indexing is `BBox.get`.
* The geometric predicates `Line.in_same_row` and
  `Line.horizontally_align_with` live in `Line.py` (an external collaborator,
  not part of the analysed source); the embedding takes them as explicit
  function parameters `sameRow` / `alignWith`, so every theorem quantifies
  over all possible behaviours of those collaborators.
* Python code that raises on some input (`max([])`, `self.lines[0]` on an
  empty list) is modelled with `Option`: `none` means an exception escapes.
-/

/-- Axis-aligned rectangle `(x0, y0, x1, y1)` in page coordinates. -/
structure BBox where
  x0 : ℚ
  y0 : ℚ
  x1 : ℚ
  y1 : ℚ
deriving DecidableEq

/-- Python-style indexing `bbox[i]` used by `set_alignment` and
`parse_line_spacing` (0 ↦ x0, 1 ↦ y0, 2 ↦ x1, 3 ↦ y1). -/
def BBox.get (b : BBox) : ℕ → ℚ
  | 0 => b.x0
  | 1 => b.y0
  | 2 => b.x1
  | _ => b.y1

/-- Text direction enumeration from `common/base.py`. -/
inductive TextDirection where
  | LEFT_RIGHT
  | BOTTOM_TOP
  | IGNORE
deriving DecidableEq

/-- Paragraph alignment enumeration from `common/base.py`. -/
inductive TextAlignment where
  | LEFT
  | CENTER
  | RIGHT
deriving DecidableEq

/-- A span is a styled text run or an inline image (`ImageSpan`).  Only the
distinction and the bbox matter to `TextBlock`; styles are an opaque id. -/
inductive Span where
  | textSpan (bbox : BBox) (style : ℕ)
  | imageSpan (bbox : BBox)
deriving DecidableEq

/-- The `isinstance(span, ImageSpan)` test used by the source. -/
def Span.isImage : Span → Bool
  | .imageSpan _ => true
  | .textSpan _ _ => false

/-- A line: bbox, text direction and its ordered spans (`Line.py` data). -/
structure Line where
  bbox : BBox
  dir : TextDirection
  spans : List Span
deriving DecidableEq

/-- Python `line.is_horizontal_text`. Modelled from the spec: the collaborator
`Line.py` is not part of the analysed source; the spec fixes horizontal text
as direction `LEFT_RIGHT` (positive x-axis). -/
def Line.is_horizontal_text (l : Line) : Bool :=
  l.dir = TextDirection.LEFT_RIGHT

/-- The `TextBlock` state: its bbox, lines and the spacing / alignment
fields written by the parsing methods. -/
structure TextBlock where
  bbox : BBox
  lines : List Line
  alignment : TextAlignment
  left_space : ℚ
  right_space : ℚ
  before_space : ℚ
  after_space : ℚ
  line_space : ℚ
deriving DecidableEq

/-- Python `TextBlock.text_direction` (TextBlock.py lines 60-70): the set of the
lines' directions; `IGNORE` wins, a singleton set gives its element, any
other set (empty or mixed) collapses to `LEFT_RIGHT`. -/
def TextBlock.text_direction (b : TextBlock) : TextDirection :=
  let res := (b.lines.map Line.dir).dedup
  if res.contains TextDirection.IGNORE then TextDirection.IGNORE
  else match res with
    | [d] => d
    | _ => TextDirection.LEFT_RIGHT

/-- Python `block.is_horizontal_text`. Modelled from the spec: `Block.py` is not in
the analysed source; horizontal means dominant direction `LEFT_RIGHT`. -/
def TextBlock.is_horizontal_text (b : TextBlock) : Bool :=
  b.text_direction = TextDirection.LEFT_RIGHT

/-- Python `block.is_vertical_text`. Modelled from the spec: vertical means dominant
direction `BOTTOM_TOP`. -/
def TextBlock.is_vertical_text (b : TextBlock) : Bool :=
  b.text_direction = TextDirection.BOTTOM_TOP

/-- Python `self.lines.image_spans` truthiness: some line carries an image span. -/
def hasImageSpans (lines : List Line) : Bool :=
  lines.any fun l => l.spans.any Span.isImage

/-- The counting loop of `contains_discrete_lines` (TextBlock.py lines
182-195): walk consecutive line pairs carrying `cnt`; a horizontally aligned
pair not in the same row returns `true` immediately; an aligned same-row
pair with `|line.bbox.x1 - next_line.bbox.x0| > distance` bumps `cnt`;
finally return `cnt >= threshold`. -/
def discreteLoop (alignWith sameRow : Line → Line → Bool) (distance : ℚ)
    (threshold : ℕ) : List Line → ℕ → Bool
  | [], cnt => threshold ≤ cnt
  | [_], cnt => threshold ≤ cnt
  | l :: l2 :: rest, cnt =>
    if alignWith l l2 then
      if ¬ sameRow l l2 then true
      else if distance < |l.bbox.x1 - l2.bbox.x0| then
        discreteLoop alignWith sameRow distance threshold (l2 :: rest) (cnt + 1)
      else discreteLoop alignWith sameRow distance threshold (l2 :: rest) cnt
    else discreteLoop alignWith sameRow distance threshold (l2 :: rest) cnt

/-- Python `TextBlock.contains_discrete_lines(distance=25, threshold=2)`
(TextBlock.py lines 166-195). -/
def TextBlock.contains_discrete_lines (alignWith sameRow : Line → Line → Bool)
    (b : TextBlock) (distance : ℚ) (threshold : ℕ) : Bool :=
  let num := b.lines.length
  if num = 1 then false
  else if hasImageSpans b.lines then true
  else if b.is_vertical_text then true
  else discreteLoop alignWith sameRow distance threshold b.lines 1

/-- The count, named by the claims, of consecutive line pairs that are
horizontally aligned, in the same row, and whose end-to-start gap along the
text-flow axis exceeds `distance`. -/
def discretePairCount (alignWith sameRow : Line → Line → Bool) (distance : ℚ) :
    List Line → ℕ
  | [] => 0
  | [_] => 0
  | l :: l2 :: rest =>
    (if alignWith l l2 ∧ sameRow l l2 ∧ distance < |l.bbox.x1 - l2.bbox.x0|
     then 1 else 0) + discretePairCount alignWith sameRow distance (l2 :: rest)

/-- Python `max` of a nonempty Python list, written head/tail. -/
def maxList (x : ℚ) (xs : List ℚ) : ℚ := xs.foldl max x

/-- Python `min` of a nonempty Python list, written head/tail. -/
def minList (x : ℚ) (xs : List ℚ) : ℚ := xs.foldl min x

/-- Python `TextBlock.set_alignment(bbox)` (TextBlock.py lines 73-112), `bbox`
being the enclosing page/column box.  `DM` is the alignment tolerance from
`common/constants.py` (not in the analysed source), passed explicitly.
On an empty block Python's `max(X0)` raises `ValueError`: modelled `none`. -/
def TextBlock.set_alignment (DM : ℚ) (b : TextBlock) (bbox : BBox) :
    Option TextBlock :=
  let idx0 : ℕ := if b.is_horizontal_text then 0 else 3
  let idx1 : ℕ := if b.is_horizontal_text then 2 else 1
  let f : ℚ := if b.is_horizontal_text then 1 else -1
  let d_left := (b.bbox.get idx0 - bbox.get idx0) * f
  let d_right := (bbox.get idx1 - b.bbox.get idx1) * f
  let d_center := (d_left - d_right) / 2
  match b.lines with
  | [] => none
  | l :: ls =>
    let X0h := l.bbox.get idx0
    let X0t := ls.map fun line => line.bbox.get idx0
    let X1h := l.bbox.get idx1
    let X1t := ls.map fun line => line.bbox.get idx1
    let Xh := (X0h + X1h) / 2
    let Xt := ls.map fun line => (line.bbox.get idx0 + line.bbox.get idx1) / 2
    let left_aligned := |maxList X0h X0t - minList X0h X0t| ≤ DM
    let right_aligned := |maxList X1h X1t - minList X1h X1t| ≤ DM
    let center_aligned := |maxList Xh Xt - minList Xh Xt| ≤ DM
    if left_aligned ∧ ¬ right_aligned then
      some { b with alignment := TextAlignment.LEFT, left_space := d_left }
    else if right_aligned ∧ ¬ left_aligned then
      some { b with alignment := TextAlignment.RIGHT, right_space := d_right }
    else if center_aligned ∧ ¬ left_aligned ∧ ¬ right_aligned then
      some { b with alignment := TextAlignment.CENTER }
    else if |d_center| < DM then
      some { b with alignment := TextAlignment.CENTER }
    else if |d_left| ≤ |d_right| then
      some { b with alignment := TextAlignment.LEFT, left_space := d_left }
    else
      some { b with alignment := TextAlignment.RIGHT, right_space := d_right }

/-- The row-counting loop of `parse_line_spacing` (TextBlock.py lines
254-262): `count += 1` for every line not in the same row as the reference
line, the reference starting as `None`.  `line.in_same_row(None)` is false
(`Line.py`, external; the spec: "the first line always counts"). -/
def rowCountLoop (sameRow : Line → Line → Bool) :
    Option Line → List Line → ℕ → ℕ
  | _, [], count => count
  | ref, l :: rest, count =>
    let count' := match ref with
      | none => count + 1
      | some r => if sameRow l r then count else count + 1
    rowCountLoop sameRow (some l) rest count'

/-- Logical row count of a block's lines. -/
def rowCount (sameRow : Line → Line → Bool) (lines : List Line) : ℕ :=
  rowCountLoop sameRow none lines 0

/-- The final clamp of `parse_line_spacing` (TextBlock.py lines 280-283):
a negative before-spacing is absorbed into the line spacing. -/
def clampBeforeSpace (count : ℕ) (b : TextBlock) : TextBlock :=
  if b.before_space < 0 then
    { b with line_space := b.line_space + b.before_space / (count : ℚ),
             before_space := 0 }
  else b

/-- Python `TextBlock.parse_line_spacing()` (TextBlock.py lines 242-283).
On an empty block Python's `self.lines[0]` raises `IndexError`: modelled
`none`.  All divisions are guarded (`count > 1`, `count ≥ 1`), so Lean's
total division agrees with Python. -/
def TextBlock.parse_line_spacing (sameRow : Line → Line → Bool)
    (b : TextBlock) : Option TextBlock :=
  match b.lines with
  | [] => none
  | l0 :: _ =>
    let idx : ℕ := if b.is_horizontal_text then 1 else 0
    let count := rowCount sameRow b.lines
    let first_line_height := l0.bbox.get (idx + 2) - l0.bbox.get idx
    let block_height := b.bbox.get (idx + 2) - b.bbox.get idx
    let line_space :=
      if 1 < count then (block_height - first_line_height) / ((count : ℚ) - 1)
      else block_height
    let before_space := b.before_space + (first_line_height - line_space)
    some (clampBeforeSpace count
      { b with line_space := line_space, before_space := before_space })

/-- First line height along the flow axis, as read by `parse_line_spacing`. -/
def firstLineHeight (b : TextBlock) (l0 : Line) : ℚ :=
  let idx : ℕ := if b.is_horizontal_text then 1 else 0
  l0.bbox.get (idx + 2) - l0.bbox.get idx

/-- Block height along the flow axis, as read by `parse_line_spacing`. -/
def blockHeight (b : TextBlock) : ℚ :=
  let idx : ℕ := if b.is_horizontal_text then 1 else 0
  b.bbox.get (idx + 2) - b.bbox.get idx

/-- An item of the docx paragraph emitted by `make_docx`: a span rendered as
a styled run, or an explicit hard line break (`p.add_run`). -/
inductive DocxItem where
  | spanRun (s : Span)
  | lineBreak
deriving DecidableEq

/-- The line-emission loop of `make_docx` (TextBlock.py lines 330-347),
`last` being `self.lines[-1]`.  Per line: emit its spans, then a hard break
unless `line == self.lines[-1]` or the next line is in the same row.
Python compares lines with default object identity; value equality here is
faithful whenever the list holds pairwise distinct lines. -/
def makeDocxLoop (sameRow : Line → Line → Bool) (last : Line) :
    List Line → List DocxItem
  | [] => []
  | [l] => l.spans.map DocxItem.spanRun ++
      (if l = last then [] else [DocxItem.lineBreak])
  | l :: l2 :: rest =>
    l.spans.map DocxItem.spanRun ++
      (if l = last then []
       else if sameRow l l2 then [] else [DocxItem.lineBreak]) ++
      makeDocxLoop sameRow last (l2 :: rest)

/-- Python `TextBlock.make_docx(p)` (TextBlock.py lines 286-349), restricted to its
content effect on the paragraph: the ordered sequence of runs and explicit
line breaks.  The paragraph-format side effects (spacing, alignment,
indent), which round floats and call the docx collaborator, are out of this
model's scope. -/
def TextBlock.make_docx (sameRow : Line → Line → Bool) (b : TextBlock) :
    List DocxItem :=
  match b.lines with
  | [] => []
  | l :: ls => makeDocxLoop sameRow ((l :: ls).getLast (by simp)) (l :: ls)

/-- The emission policy in the spec's words: spans of each line in order, an
explicit break after every line except the last and except a line whose
successor is in the same row. -/
def makeDocxSpec (sameRow : Line → Line → Bool) : List Line → List DocxItem
  | [] => []
  | [l] => l.spans.map DocxItem.spanRun
  | l :: l2 :: rest =>
    l.spans.map DocxItem.spanRun ++
      (if sameRow l l2 then [] else [DocxItem.lineBreak]) ++
      makeDocxSpec sameRow (l2 :: rest)

/-- Shape ("rect") types from `common/base.py`: a shape is either still
undecided or already attributed to a style. -/
inductive RectType where
  | UNDEFINED
  | HIGHLIGHT
  | UNDERLINE
  | STRIKE
deriving DecidableEq

/-- A decoration shape as consumed by `parse_text_format`. -/
structure Shape where
  bbox : BBox
  rect_type : RectType
deriving DecidableEq

/-- Python `fitz.Rect.intersects`: the two boxes share a nonempty area.  Modelled
from the external geometry library's documented behaviour. -/
def BBox.intersects (a b : BBox) : Bool :=
  a.x0 < b.x1 ∧ b.x0 < a.x1 ∧ a.y0 < b.y1 ∧ b.y0 < a.y1

/-- Coordinatewise rectangle addition `line.bbox + DR` (fitz `Rect.__add__`
with a rect argument): `DR` is the expansion margin rect from
`common/constants.py`. -/
def BBox.addRect (a b : BBox) : BBox :=
  ⟨a.x0 + b.x0, a.y0 + b.y0, a.x1 + b.x1, a.y1 + b.y1⟩

/-- fitz rectangle intersection `a & b`. -/
def BBox.inter (a b : BBox) : BBox :=
  ⟨max a.x0 b.x0, max a.y0 b.y0, min a.x1 b.x1, min a.y1 b.y1⟩

/-- fitz rect truthiness (`if not intsec`): nonempty and valid. -/
def BBox.isTruthy (a : BBox) : Bool :=
  a.x0 < a.x1 ∧ a.y0 < a.y1

/-- The per-line loop of `parse_text_format` for one shape (TextBlock.py
lines 216-237).  `splitSpan` abstracts `TextSpan.split(rect,
is_horizontal_text)` (in `TextSpan.py`, external): image spans pass through
unsplit, text spans are replaced by their split and set the flag.  When the
expanded line box misses the shape and the shape lies above the line, the
loop breaks, leaving the remaining lines untouched. -/
def formatLinesLoop (splitSpan : Span → Shape → Bool → List Span) (DR : BBox)
    (rect : Shape) : List Line → Bool → List Line × Bool
  | [], flag => ([], flag)
  | line :: rest, flag =>
    let intsec := rect.bbox.inter (line.bbox.addRect DR)
    if ¬ intsec.isTruthy then
      if rect.bbox.y1 < line.bbox.y0 then (line :: rest, flag)
      else
        let (rest', flag') := formatLinesLoop splitSpan DR rect rest flag
        (line :: rest', flag')
    else
      let step := fun (acc : List Span × Bool) (span : Span) =>
        if span.isImage then (acc.1 ++ [span], acc.2)
        else (acc.1 ++ splitSpan span rect line.is_horizontal_text, true)
      let res := line.spans.foldl step ([], flag)
      let (rest', flag') := formatLinesLoop splitSpan DR rect rest res.2
      ({ line with spans := res.1 } :: rest', flag')

/-- One iteration of the shape loop of `parse_text_format` (TextBlock.py
lines 207-237): a shape already attributed (`type != UNDEFINED`) or not
intersecting the block's bbox is skipped (`continue`); otherwise the lines
are re-split against it. -/
def formatStep (splitSpan : Span → Shape → Bool → List Span) (DR : BBox)
    (acc : TextBlock × Bool) (rect : Shape) : TextBlock × Bool :=
  if rect.rect_type ≠ RectType.UNDEFINED then acc
  else if ¬ acc.1.bbox.intersects rect.bbox then acc
  else
    let res := formatLinesLoop splitSpan DR rect acc.1.lines acc.2
    ({ acc.1 with lines := res.1 }, res.2)

/-- Python `TextBlock.parse_text_format(rects)` (TextBlock.py lines 198-239): fold
the shape loop over the candidate shapes, the flag starting `False`. -/
def TextBlock.parse_text_format (splitSpan : Span → Shape → Bool → List Span)
    (DR : BBox) (b : TextBlock) (rects : List Shape) : TextBlock × Bool :=
  rects.foldl (formatStep splitSpan DR) (b, false)

/-- The constructor's raw input dict (PyMuPDF raw page dict for one block):
only the keys `TextBlock.__init__` touches are modelled: an optional
`bbox` entry and the `lines` entry. -/
structure RawBlockDict where
  bbox : Option BBox
  lines : List Line
deriving DecidableEq

/-- Python `TextBlock.__init__(raw)` (TextBlock.py lines 41-51): pops the `bbox`
key from the caller's dict, then builds the block from the remaining dict
(the block's own bbox is re-derived from the lines by the `Block`/`Lines`
collaborators).  The returned pair is (constructed block, the caller's dict
after the call) — the second component makes the argument mutation
observable. -/
def textBlockInit (raw : RawBlockDict) : TextBlock × RawBlockDict :=
  let raw' : RawBlockDict := { raw with bbox := none }
  (⟨⟨0, 0, 0, 0⟩, raw.lines, TextAlignment.LEFT, 0, 0, 0, 0, 0⟩, raw')

/-- Count of consecutive not-in-same-row steps after a previous line:
`chainBreaks prev ls` is how many lines of `ls` start a new row, scanning
with `prev` as the running reference line. -/
def chainBreaks (sameRow : Line → Line → Bool) : Line → List Line → ℕ
  | _, [] => 0
  | prev, l :: rest =>
    (if sameRow l prev then 0 else 1) + chainBreaks sameRow l rest

/-- The `line_space` value computed by `parse_line_spacing` before the
clamp: the spec's formula. -/
def lineSpaceCalc (sameRow : Line → Line → Bool) (b : TextBlock) (l0 : Line) :
    ℚ :=
  if 1 < rowCount sameRow b.lines then
    (blockHeight b - firstLineHeight b l0) /
      ((rowCount sameRow b.lines : ℚ) - 1)
  else blockHeight b

/-- Index of the leading edge along the text-flow axis (`idx0`). -/
def leadIdx (b : TextBlock) : ℕ := if b.is_horizontal_text then 0 else 3

/-- Index of the trailing edge along the text-flow axis (`idx1`). -/
def trailIdx (b : TextBlock) : ℕ := if b.is_horizontal_text then 2 else 1

/-- Sign factor `f` of the flow axis. -/
def flowSign (b : TextBlock) : ℚ := if b.is_horizontal_text then 1 else -1

/-- All-true when every horizontally aligned consecutive pair of lines is
also in the same row (the regime in which `contains_discrete_lines` never
takes its early-true branch). -/
def alignedPairsInSameRow (alignWith sameRow : Line → Line → Bool) :
    List Line → Bool
  | [] => true
  | [_] => true
  | l :: l2 :: rest =>
    (!alignWith l l2 || sameRow l l2) &&
      alignedPairsInSameRow alignWith sameRow (l2 :: rest)

/-- Constantly-true line predicate (a degenerate collaborator instance). -/
def predT : Line → Line → Bool := fun _ _ => true

/-- Constantly-false line predicate (a degenerate collaborator instance). -/
def predF : Line → Line → Bool := fun _ _ => false

/-- A text line at `(0,0)-(10,10)` with one text span. -/
def lineA : Line :=
  ⟨⟨0, 0, 10, 10⟩, TextDirection.LEFT_RIGHT, [Span.textSpan ⟨0, 0, 10, 10⟩ 0]⟩

/-- A text line at `(40,0)-(50,10)`: its start is 30 units right of
`lineA`'s end. -/
def lineB : Line :=
  ⟨⟨40, 0, 50, 10⟩, TextDirection.LEFT_RIGHT, [Span.textSpan ⟨40, 0, 50, 10⟩ 1]⟩

/-- Two-line horizontal block: `lineA` then `lineB`, gap 30 along x. -/
def blkC1 : TextBlock :=
  ⟨⟨0, 0, 50, 10⟩, [lineA, lineB], TextAlignment.LEFT, 0, 0, 0, 0, 0⟩

/-- An image-bearing line. -/
def lineImg : Line :=
  ⟨⟨0, 0, 10, 10⟩, TextDirection.LEFT_RIGHT, [Span.imageSpan ⟨0, 0, 10, 10⟩]⟩

/-- Single-line block whose only line carries an image span. -/
def blkC2 : TextBlock :=
  ⟨⟨0, 0, 10, 10⟩, [lineImg], TextAlignment.LEFT, 0, 0, 0, 0, 0⟩

/-- C1, counterexample: with the default `distance=25`, `threshold=2`, a
horizontal two-line block without image spans whose single consecutive pair
is horizontally aligned, in the same row, with gap 30 > 25 — so the claim's
pair count is 1 < 2 and the claim predicts "not discrete" — is classified
discrete by the code (`cnt` starts at 1, so one qualifying pair already
reaches the threshold). -/
theorem C1_counterexample :
    blkC1.is_horizontal_text = true ∧
    2 ≤ blkC1.lines.length ∧
    hasImageSpans blkC1.lines = false ∧
    alignedPairsInSameRow predT predT blkC1.lines = true ∧
    discretePairCount predT predT 25 blkC1.lines = 1 ∧
    TextBlock.contains_discrete_lines predT predT blkC1 25 2 = true := by
  refine ⟨by decide, by decide, by decide, by decide, ?_, ?_⟩
  · norm_num [discretePairCount, predT, blkC1, lineA, lineB]
  · norm_num [TextBlock.contains_discrete_lines, discreteLoop, hasImageSpans,
      TextBlock.is_vertical_text, TextBlock.text_direction, Span.isImage,
      predT, blkC1, lineA, lineB]

/-- Helper for C1: under the no-row-break regime the counting loop of
`contains_discrete_lines` returns whether `cnt` plus the number of
qualifying pairs reaches the threshold. -/
theorem discreteLoop_eq_count (alignWith sameRow : Line → Line → Bool)
    (d : ℚ) (t : ℕ) (lines : List Line) :
    ∀ cnt : ℕ, alignedPairsInSameRow alignWith sameRow lines = true →
      discreteLoop alignWith sameRow d t lines cnt =
        decide (t ≤ cnt + discretePairCount alignWith sameRow d lines) := by
  induction lines with
  | nil => intro cnt _; simp [discreteLoop, discretePairCount]
  | cons l rest ih =>
    cases rest with
    | nil => intro cnt _; simp [discreteLoop, discretePairCount]
    | cons l2 rest2 =>
      intro cnt hrows
      rw [alignedPairsInSameRow] at hrows
      rw [Bool.and_eq_true] at hrows
      obtain ⟨hpair, hrest⟩ := hrows
      rw [discreteLoop, discretePairCount]
      cases ha : alignWith l l2 with
      | false =>
        rw [if_neg (by simp [ha])]
        rw [ih cnt hrest]
        simp [ha]
      | true =>
        have hsr : sameRow l l2 = true := by
          rw [ha] at hpair; simpa using hpair
        rw [if_pos (by simp [ha])]
        rw [if_neg (by simp [hsr])]
        by_cases hd : d < |l.bbox.x1 - l2.bbox.x0|
        · rw [if_pos hd, ih (cnt + 1) hrest]
          have hassoc : cnt + 1 + discretePairCount alignWith sameRow d (l2 :: rest2) =
              cnt + (1 + discretePairCount alignWith sameRow d (l2 :: rest2)) :=
            Nat.add_assoc cnt 1 _
          simp [hassoc, hd, hsr, ha]
        · rw [if_neg hd, ih cnt hrest]
          simp [hd]

/-- C1, amended: for a horizontal-text block with at least two lines, no
image spans, and every horizontally aligned consecutive pair in the same
row, `contains_discrete_lines(25, 2)` classifies the block discrete exactly
when the count of consecutive aligned same-row pairs with gap over 25
reaches `threshold - 1 = 1` (the internal counter starts at 1, not 0); in
particular the two-line block with one such pair IS discrete. -/
theorem C1_amended (alignWith sameRow : Line → Line → Bool) (b : TextBlock)
    (hhor : b.is_horizontal_text = true) (h2 : 2 ≤ b.lines.length)
    (himg : hasImageSpans b.lines = false)
    (hrows : alignedPairsInSameRow alignWith sameRow b.lines = true) :
    (TextBlock.contains_discrete_lines alignWith sameRow b 25 2 = true ↔
      1 ≤ discretePairCount alignWith sameRow 25 b.lines) := by
  have hnum : ¬ b.lines.length = 1 := by omega
  have hdir : b.text_direction = TextDirection.LEFT_RIGHT := by
    simpa [TextBlock.is_horizontal_text] using hhor
  have hvert : b.is_vertical_text = false := by
    simp [TextBlock.is_vertical_text, hdir]
  rw [TextBlock.contains_discrete_lines]
  simp only [hnum, if_false, himg, hvert, Bool.false_eq_true]
  rw [discreteLoop_eq_count _ _ _ _ _ 1 hrows]
  simp only [decide_eq_true_eq]
  omega

/-- C1, witness: the two-line block `blkC1` satisfies the amended claim's
hypotheses, and its single qualifying pair makes it discrete. -/
theorem C1_amended_witness :
    (blkC1.is_horizontal_text = true ∧ 2 ≤ blkC1.lines.length ∧
     hasImageSpans blkC1.lines = false ∧
     alignedPairsInSameRow predT predT blkC1.lines = true) ∧
    (TextBlock.contains_discrete_lines predT predT blkC1 25 2 = true ↔
      1 ≤ discretePairCount predT predT 25 blkC1.lines) :=
  ⟨⟨by decide, by decide, by decide, by decide⟩,
   C1_amended predT predT blkC1 (by decide) (by decide) (by decide) (by decide)⟩

/-- C2, counterexample: a block whose single line carries an image span is
NOT classified discrete — the `len(lines) == 1` early return fires before
the image-span check — refuting "a block containing at least one image span
is always classified discrete, regardless of its number of lines". -/
theorem C2_counterexample :
    hasImageSpans blkC2.lines = true ∧
    TextBlock.contains_discrete_lines predT predT blkC2 25 2 = false :=
  ⟨by decide, by decide⟩

/-- C2, amended: a block with at least TWO lines containing at least one
image span is always classified discrete, for every distance, threshold and
collaborator predicate, regardless of any other geometry. -/
theorem C2_amended (alignWith sameRow : Line → Line → Bool) (b : TextBlock)
    (distance : ℚ) (threshold : ℕ) (h2 : 2 ≤ b.lines.length)
    (himg : hasImageSpans b.lines = true) :
    TextBlock.contains_discrete_lines alignWith sameRow b distance threshold
      = true := by
  have hnum : ¬ b.lines.length = 1 := by omega
  rw [TextBlock.contains_discrete_lines]
  simp [hnum, himg]

/-- Two-line block whose first line carries an image span. -/
def blkC2w : TextBlock :=
  ⟨⟨0, 0, 50, 10⟩, [lineImg, lineB], TextAlignment.LEFT, 0, 0, 0, 0, 0⟩

/-- C2, witness: a concrete two-line image-bearing block is discrete. -/
theorem C2_amended_witness :
    (2 ≤ blkC2w.lines.length ∧ hasImageSpans blkC2w.lines = true) ∧
    TextBlock.contains_discrete_lines predF predF blkC2w 25 2 = true :=
  ⟨⟨by decide, by decide⟩,
   C2_amended predF predF blkC2w 25 2 (by decide) (by decide)⟩

/-- C10: the constructor pops the `bbox` key from the caller's raw dict:
after construction the dict no longer has a `bbox` entry (its other content
is untouched), so the input argument is mutated, not left unchanged. -/
theorem C10_init_pops_bbox (raw : RawBlockDict) (h : raw.bbox.isSome = true) :
    (textBlockInit raw).2.bbox = none ∧
    (textBlockInit raw).2.lines = raw.lines ∧
    (textBlockInit raw).2 ≠ raw := by
  refine ⟨rfl, rfl, ?_⟩
  intro hEq
  have hb : (textBlockInit raw).2.bbox = raw.bbox := by rw [hEq]
  have hn : (textBlockInit raw).2.bbox = none := rfl
  rw [hn] at hb
  rw [← hb] at h
  simp at h

/-- Raw dict holding a `bbox` entry. -/
def rawC10 : RawBlockDict := ⟨some ⟨0, 0, 1, 1⟩, [lineA]⟩

/-- C10, witness: on a concrete dict with a `bbox` entry the constructor
removes the entry and the dict is observably mutated. -/
theorem C10_init_pops_bbox_witness :
    rawC10.bbox.isSome = true ∧
    ((textBlockInit rawC10).2.bbox = none ∧
     (textBlockInit rawC10).2.lines = rawC10.lines ∧
     (textBlockInit rawC10).2 ≠ rawC10) :=
  ⟨rfl, C10_init_pops_bbox rawC10 rfl⟩

/-- Helper: the row-counting loop with a concrete reference line adds the
number of row breaks to the accumulator. -/
theorem rowCountLoop_some (sameRow : Line → Line → Bool) (lines : List Line) :
    ∀ (r : Line) (c : ℕ),
      rowCountLoop sameRow (some r) lines c = c + chainBreaks sameRow r lines := by
  induction lines with
  | nil => intro r c; rfl
  | cons l rest ih =>
    intro r c
    rw [rowCountLoop, chainBreaks]
    cases h : sameRow l r with
    | true => simp [h, ih]
    | false => simp [h, ih]; omega

/-- Helper: row count of a nonempty line list is one (the first line) plus
the number of consecutive row breaks. -/
theorem rowCount_cons (sameRow : Line → Line → Bool) (l0 : Line)
    (rest : List Line) :
    rowCount sameRow (l0 :: rest) = 1 + chainBreaks sameRow l0 rest := by
  rw [rowCount, rowCountLoop, rowCountLoop_some]

/-- Helper: `parse_line_spacing` on a nonempty block is exactly: set
`line_space` to the row-count formula, add `first_line_height - line_space`
to `before_space`, then apply the negative-before-space clamp. -/
theorem parse_line_spacing_eq (sameRow : Line → Line → Bool) (b : TextBlock)
    (l0 : Line) (rest : List Line) (hl : b.lines = l0 :: rest) :
    TextBlock.parse_line_spacing sameRow b =
      some (clampBeforeSpace (rowCount sameRow b.lines)
        { b with
            line_space := lineSpaceCalc sameRow b l0,
            before_space := b.before_space +
              (firstLineHeight b l0 - lineSpaceCalc sameRow b l0) }) := by
  simp only [TextBlock.parse_line_spacing, lineSpaceCalc, firstLineHeight,
    blockHeight, hl]

/-- Helper: the pre-clamp line spacing is positive when the first line has
positive height, the block is at least as tall as its first line, and
strictly taller whenever there is more than one row. -/
theorem lineSpaceCalc_pos (sameRow : Line → Line → Bool) (b : TextBlock)
    (l0 : Line) (h1 : 0 < firstLineHeight b l0)
    (h2 : firstLineHeight b l0 ≤ blockHeight b)
    (h3 : 1 < rowCount sameRow b.lines → firstLineHeight b l0 < blockHeight b) :
    0 < lineSpaceCalc sameRow b l0 := by
  rw [lineSpaceCalc]
  by_cases hc : 1 < rowCount sameRow b.lines
  · rw [if_pos hc]
    have hcast : (1 : ℚ) < (rowCount sameRow b.lines : ℚ) := by exact_mod_cast hc
    exact div_pos (by linarith [h3 hc]) (by linarith)
  · rw [if_neg hc]
    linarith

/-- Helper: arithmetic of the negative-before-space clamp: reducing a
positive line spacing by the deficit spread over `q ≥ 1` rows keeps it
positive, provided the pre-adjustment before-space and first line height
are nonnegative resp. positive. -/
theorem clamp_keeps_pos (q ls0 bs0 flh : ℚ) (hq : 1 ≤ q) (hls : 0 < ls0)
    (hbs0 : 0 ≤ bs0) (hflh : 0 < flh) :
    0 < ls0 + (bs0 + (flh - ls0)) / q := by
  have hq0 : 0 < q := by linarith
  have key : ls0 + (bs0 + (flh - ls0)) / q =
      ((q - 1) * ls0 + (bs0 + flh)) / q := by
    field_simp
    ring
  rw [key]
  refine div_pos ?_ hq0
  have h1 : 0 ≤ (q - 1) * ls0 := mul_nonneg (by linarith) (le_of_lt hls)
  linarith


/-- Helper: on a horizontal-text block the first line height is the first
line's vertical extent. -/
theorem firstLineHeight_horiz (b : TextBlock) (l0 : Line)
    (hh : b.is_horizontal_text = true) :
    firstLineHeight b l0 = l0.bbox.y1 - l0.bbox.y0 := by
  rw [firstLineHeight, hh]
  rfl

/-- Helper: on a horizontal-text block the block height is the block bbox's
vertical extent. -/
theorem blockHeight_horiz (b : TextBlock) (hh : b.is_horizontal_text = true) :
    blockHeight b = b.bbox.y1 - b.bbox.y0 := by
  rw [blockHeight, hh]
  rfl

/-- A degenerate zero-height line at `(0,0)-(10,0)`. -/
def lineC3 : Line :=
  ⟨⟨0, 0, 10, 0⟩, TextDirection.LEFT_RIGHT, [Span.textSpan ⟨0, 0, 10, 0⟩ 0]⟩

/-- C3, counterexample block: one line of zero height. -/
def blkC3 : TextBlock :=
  ⟨⟨0, 0, 10, 0⟩, [lineC3], TextAlignment.LEFT, 0, 0, 0, 0, 0⟩

/-- C3, counterexample: a block with one (degenerate, zero-height) line
comes out of `parse_line_spacing` with `line_space = 0`, refuting the
unconditional "line_space > 0". -/
theorem C3_counterexample :
    blkC3.lines ≠ [] ∧
    ∃ b', TextBlock.parse_line_spacing predT blkC3 = some b' ∧
      ¬ 0 < b'.line_space := by
  refine ⟨by decide, ?_⟩
  rw [parse_line_spacing_eq predT blkC3 lineC3 [] rfl]
  refine ⟨_, rfl, ?_⟩
  have hh : blkC3.is_horizontal_text = true := by decide
  have hrc : rowCount predT blkC3.lines = 1 := by decide
  have hfl : firstLineHeight blkC3 lineC3 = 0 := by
    rw [firstLineHeight_horiz blkC3 lineC3 hh]
    norm_num [lineC3]
  have hbh : blockHeight blkC3 = 0 := by
    rw [blockHeight_horiz blkC3 hh]
    norm_num [blkC3]
  have hls : lineSpaceCalc predT blkC3 lineC3 = 0 := by
    rw [lineSpaceCalc, hrc, if_neg (by norm_num), hbh]
  simp only [clampBeforeSpace, hls, hfl, hrc]
  norm_num [blkC3]

/-- C3, amended: after `parse_line_spacing` on a block with at least one
line, `before_space ≥ 0` holds unconditionally; `line_space > 0` holds
provided the incoming `before_space` is nonnegative, the first line has
positive height, the block is at least as tall as its first line, and
strictly taller when there is more than one row. -/
theorem C3_amended (sameRow : Line → Line → Bool) (b : TextBlock) (l0 : Line)
    (rest : List Line) (hl : b.lines = l0 :: rest) :
    ∃ b', TextBlock.parse_line_spacing sameRow b = some b' ∧
      0 ≤ b'.before_space ∧
      (0 ≤ b.before_space → 0 < firstLineHeight b l0 →
       firstLineHeight b l0 ≤ blockHeight b →
       (1 < rowCount sameRow b.lines → firstLineHeight b l0 < blockHeight b) →
       0 < b'.line_space) := by
  have hcount : 1 ≤ rowCount sameRow b.lines := by
    rw [hl, rowCount_cons]
    omega
  rw [parse_line_spacing_eq sameRow b l0 rest hl]
  refine ⟨_, rfl, ?_, ?_⟩
  · rw [clampBeforeSpace]
    split
    · simp
    · rename_i h
      simpa using le_of_not_lt h
  · intro hbs0 hflh hle hlt
    have hls0 := lineSpaceCalc_pos sameRow b l0 hflh hle hlt
    rw [clampBeforeSpace]
    split
    · rename_i h
      have hq : (1 : ℚ) ≤ (rowCount sameRow b.lines : ℚ) := by
        exact_mod_cast hcount
      simpa using clamp_keeps_pos (rowCount sameRow b.lines : ℚ)
        (lineSpaceCalc sameRow b l0) b.before_space (firstLineHeight b l0)
        hq hls0 hbs0 hflh
    · simpa using hls0

/-- A line of height 20 at `(0,0)-(10,20)`. -/
def lineC3w : Line :=
  ⟨⟨0, 0, 10, 20⟩, TextDirection.LEFT_RIGHT, [Span.textSpan ⟨0, 0, 10, 20⟩ 0]⟩

/-- C3, witness block: one line of height 20 filling its block. -/
def blkC3w : TextBlock :=
  ⟨⟨0, 0, 10, 20⟩, [lineC3w], TextAlignment.LEFT, 0, 0, 0, 0, 0⟩

/-- C3, witness: the single-line height-20 block satisfies the amended
hypotheses and conclusion. -/
theorem C3_amended_witness :
    (blkC3w.lines = lineC3w :: [] ∧ 0 ≤ blkC3w.before_space ∧
     0 < firstLineHeight blkC3w lineC3w ∧
     firstLineHeight blkC3w lineC3w ≤ blockHeight blkC3w) ∧
    (∃ b', TextBlock.parse_line_spacing predT blkC3w = some b' ∧
      0 ≤ b'.before_space ∧
      (0 ≤ blkC3w.before_space → 0 < firstLineHeight blkC3w lineC3w →
       firstLineHeight blkC3w lineC3w ≤ blockHeight blkC3w →
       (1 < rowCount predT blkC3w.lines →
         firstLineHeight blkC3w lineC3w < blockHeight blkC3w) →
       0 < b'.line_space)) := by
  have hh : blkC3w.is_horizontal_text = true := by decide
  refine ⟨⟨rfl, by norm_num [blkC3w], ?_, ?_⟩,
    C3_amended predT blkC3w lineC3w [] rfl⟩
  · rw [firstLineHeight_horiz blkC3w lineC3w hh]
    norm_num [lineC3w]
  · rw [firstLineHeight_horiz blkC3w lineC3w hh, blockHeight_horiz blkC3w hh]
    norm_num [lineC3w, blkC3w]

/-- C4: when the adjusted before-space
`before_space + (first_line_height - line_space)` is negative,
`parse_line_spacing` clamps the final `before_space` to exactly zero and
reduces `line_space` by `deficit / row_count`, the deficit being the
magnitude of the negative adjusted before-space. -/
theorem C4_negative_before_space_clamped (sameRow : Line → Line → Bool)
    (b : TextBlock) (l0 : Line) (rest : List Line) (hl : b.lines = l0 :: rest)
    (hneg : b.before_space +
      (firstLineHeight b l0 - lineSpaceCalc sameRow b l0) < 0) :
    ∃ b', TextBlock.parse_line_spacing sameRow b = some b' ∧
      b'.before_space = 0 ∧
      b'.line_space = lineSpaceCalc sameRow b l0 -
        (-(b.before_space +
            (firstLineHeight b l0 - lineSpaceCalc sameRow b l0))) /
          (rowCount sameRow b.lines : ℚ) := by
  rw [parse_line_spacing_eq sameRow b l0 rest hl]
  refine ⟨_, rfl, ?_, ?_⟩
  · rw [clampBeforeSpace, if_pos (by simpa using hneg)]
  · rw [clampBeforeSpace, if_pos (by simpa using hneg)]
    show lineSpaceCalc sameRow b l0 +
        (b.before_space +
          (firstLineHeight b l0 - lineSpaceCalc sameRow b l0)) /
          (rowCount sameRow b.lines : ℚ) = _
    ring

/-- C4 / C5 shared scenario lines: two stacked rows, first of height 6. -/
def lineC4a : Line :=
  ⟨⟨0, 0, 10, 6⟩, TextDirection.LEFT_RIGHT, [Span.textSpan ⟨0, 0, 10, 6⟩ 0]⟩

/-- Second row of the C4 scenario block. -/
def lineC4b : Line :=
  ⟨⟨0, 10, 10, 20⟩, TextDirection.LEFT_RIGHT, [Span.textSpan ⟨0, 10, 10, 20⟩ 1]⟩

/-- C4 scenario block: height 20, first line height 6, `before_space = 4`,
two rows; the adjusted before-space is `4 + (6 - 14) = -4`. -/
def blkC4 : TextBlock :=
  ⟨⟨0, 0, 10, 20⟩, [lineC4a, lineC4b], TextAlignment.LEFT, 0, 0, 4, 0, 0⟩

/-- C4, witness: on the scenario block the adjusted before-space is `-4`
with row count 2: `before_space` is clamped to 0 and `line_space` drops by
`2 = 4/2` (from 14 to 12). -/
theorem C4_negative_before_space_clamped_witness :
    (blkC4.lines = lineC4a :: [lineC4b] ∧
     rowCount predF blkC4.lines = 2 ∧
     lineSpaceCalc predF blkC4 lineC4a = 14 ∧
     blkC4.before_space +
       (firstLineHeight blkC4 lineC4a - lineSpaceCalc predF blkC4 lineC4a)
       = -4) ∧
    (∃ b', TextBlock.parse_line_spacing predF blkC4 = some b' ∧
      b'.before_space = 0 ∧
      b'.line_space = lineSpaceCalc predF blkC4 lineC4a -
        (-(blkC4.before_space +
            (firstLineHeight blkC4 lineC4a - lineSpaceCalc predF blkC4 lineC4a))) /
          (rowCount predF blkC4.lines : ℚ)) := by
  have hh : blkC4.is_horizontal_text = true := by decide
  have hrc : rowCount predF blkC4.lines = 2 := by decide
  have hfl : firstLineHeight blkC4 lineC4a = 6 := by
    rw [firstLineHeight_horiz blkC4 lineC4a hh]
    norm_num [lineC4a]
  have hbh : blockHeight blkC4 = 20 := by
    rw [blockHeight_horiz blkC4 hh]
    norm_num [blkC4]
  have hls : lineSpaceCalc predF blkC4 lineC4a = 14 := by
    rw [lineSpaceCalc, hrc, if_pos (by norm_num), hbh, hfl]
    norm_num
  have hneg : blkC4.before_space +
      (firstLineHeight blkC4 lineC4a - lineSpaceCalc predF blkC4 lineC4a)
      < 0 := by
    rw [hfl, hls]
    norm_num [blkC4]
  refine ⟨⟨rfl, hrc, hls, ?_⟩,
    C4_negative_before_space_clamped predF blkC4 lineC4a [lineC4b] rfl hneg⟩
  rw [hfl, hls]
  norm_num [blkC4]

/-- C5: on a block with at least one line, `parse_line_spacing` computes the
row count as 1 (the first line) plus the number of consecutive lines not in
the same row as their predecessor, sets `line_space` to
`(block_height - first_line_height)/(row_count - 1)` when the row count
exceeds 1 and to `block_height` otherwise (that is `lineSpaceCalc`), adds
`first_line_height - line_space` to `before_space`, and finally applies the
negative-before-space clamp; when the adjusted before-space is nonnegative
the clamp is the identity, so those are the final field values. -/
theorem C5_line_space_formula (sameRow : Line → Line → Bool) (b : TextBlock)
    (l0 : Line) (rest : List Line) (hl : b.lines = l0 :: rest) :
    rowCount sameRow b.lines = 1 + chainBreaks sameRow l0 rest ∧
    TextBlock.parse_line_spacing sameRow b =
      some (clampBeforeSpace (rowCount sameRow b.lines)
        { b with
            line_space := lineSpaceCalc sameRow b l0,
            before_space := b.before_space +
              (firstLineHeight b l0 - lineSpaceCalc sameRow b l0) }) ∧
    (0 ≤ b.before_space +
        (firstLineHeight b l0 - lineSpaceCalc sameRow b l0) →
      TextBlock.parse_line_spacing sameRow b =
        some { b with
                 line_space := lineSpaceCalc sameRow b l0,
                 before_space := b.before_space +
                   (firstLineHeight b l0 - lineSpaceCalc sameRow b l0) }) := by
  refine ⟨by rw [hl, rowCount_cons], parse_line_spacing_eq sameRow b l0 rest hl, ?_⟩
  intro hok
  rw [parse_line_spacing_eq sameRow b l0 rest hl]
  rw [clampBeforeSpace, if_neg (by simpa using not_lt.mpr hok)]

/-- The five stacked rows of the C5 scenario block, first of height 20. -/
def lineC5a : Line :=
  ⟨⟨0, 0, 10, 20⟩, TextDirection.LEFT_RIGHT, [Span.textSpan ⟨0, 0, 10, 20⟩ 0]⟩

/-- Second row of the C5 scenario block. -/
def lineC5b : Line :=
  ⟨⟨0, 20, 10, 30⟩, TextDirection.LEFT_RIGHT, [Span.textSpan ⟨0, 20, 10, 30⟩ 1]⟩

/-- Third row of the C5 scenario block. -/
def lineC5c : Line :=
  ⟨⟨0, 40, 10, 50⟩, TextDirection.LEFT_RIGHT, [Span.textSpan ⟨0, 40, 10, 50⟩ 2]⟩

/-- Fourth row of the C5 scenario block. -/
def lineC5d : Line :=
  ⟨⟨0, 60, 10, 70⟩, TextDirection.LEFT_RIGHT, [Span.textSpan ⟨0, 60, 10, 70⟩ 3]⟩

/-- Fifth row of the C5 scenario block. -/
def lineC5e : Line :=
  ⟨⟨0, 80, 10, 100⟩, TextDirection.LEFT_RIGHT, [Span.textSpan ⟨0, 80, 10, 100⟩ 4]⟩

/-- C5 scenario block: height 100, first line height 20, five rows. -/
def blkC5 : TextBlock :=
  ⟨⟨0, 0, 10, 100⟩, [lineC5a, lineC5b, lineC5c, lineC5d, lineC5e],
   TextAlignment.LEFT, 0, 0, 0, 0, 0⟩

/-- C5, witness: block height 100, first line height 20, row count 5 give
`line_space = (100-20)/4 = 20` and a zero before-space adjustment, and
`parse_line_spacing` lands exactly there. -/
theorem C5_line_space_formula_witness :
    (blkC5.lines = lineC5a :: [lineC5b, lineC5c, lineC5d, lineC5e] ∧
     rowCount predF blkC5.lines = 5 ∧
     blockHeight blkC5 = 100 ∧ firstLineHeight blkC5 lineC5a = 20 ∧
     lineSpaceCalc predF blkC5 lineC5a = 20 ∧
     blkC5.before_space +
       (firstLineHeight blkC5 lineC5a - lineSpaceCalc predF blkC5 lineC5a)
       = 0) ∧
    TextBlock.parse_line_spacing predF blkC5 =
      some { blkC5 with line_space := 20, before_space := 0 } := by
  have hh : blkC5.is_horizontal_text = true := by decide
  have hrc : rowCount predF blkC5.lines = 5 := by decide
  have hfl : firstLineHeight blkC5 lineC5a = 20 := by
    rw [firstLineHeight_horiz blkC5 lineC5a hh]
    norm_num [lineC5a]
  have hbh : blockHeight blkC5 = 100 := by
    rw [blockHeight_horiz blkC5 hh]
    norm_num [blkC5]
  have hls : lineSpaceCalc predF blkC5 lineC5a = 20 := by
    rw [lineSpaceCalc, hrc, if_pos (by norm_num), hbh, hfl]
    norm_num
  have hadj : blkC5.before_space +
      (firstLineHeight blkC5 lineC5a - lineSpaceCalc predF blkC5 lineC5a)
      = 0 := by
    rw [hfl, hls]
    norm_num [blkC5]
  have happ := (C5_line_space_formula predF blkC5 lineC5a
    [lineC5b, lineC5c, lineC5d, lineC5e] rfl).2.2 (by rw [hadj])
  refine ⟨⟨rfl, hrc, hbh, hfl, hls, hadj⟩, ?_⟩
  rw [happ, hadj, hls]

/-- C6: when the contained lines' leading edges along the text-flow axis
are all within tolerance `DM` of each other (their max minus min) while the
trailing edges are not, `set_alignment` picks alignment LEFT and stores in
`left_space` the margin from the block's bbox to the enclosing page/column
bbox on the leading side. -/
theorem C6_left_aligned (DM : ℚ) (b : TextBlock) (page : BBox) (l : Line)
    (ls : List Line) (hl : b.lines = l :: ls)
    (hleft :
      |maxList (l.bbox.get (leadIdx b)) (ls.map fun x => x.bbox.get (leadIdx b)) -
        minList (l.bbox.get (leadIdx b)) (ls.map fun x => x.bbox.get (leadIdx b))|
        ≤ DM)
    (hright :
      ¬ |maxList (l.bbox.get (trailIdx b)) (ls.map fun x => x.bbox.get (trailIdx b)) -
          minList (l.bbox.get (trailIdx b)) (ls.map fun x => x.bbox.get (trailIdx b))|
          ≤ DM) :
    ∃ b', b.set_alignment DM page = some b' ∧
      b'.alignment = TextAlignment.LEFT ∧
      b'.left_space = (b.bbox.get (leadIdx b) - page.get (leadIdx b)) * flowSign b := by
  rw [leadIdx] at hleft
  rw [trailIdx] at hright
  simp only [TextBlock.set_alignment, hl]
  rw [if_pos ⟨hleft, hright⟩]
  exact ⟨_, rfl, rfl, by rw [leadIdx, flowSign]⟩

/-- First line of the C6 witness block: left edge 5, right edge 15. -/
def lineC6a : Line :=
  ⟨⟨5, 0, 15, 10⟩, TextDirection.LEFT_RIGHT, [Span.textSpan ⟨5, 0, 15, 10⟩ 0]⟩

/-- Second line of the C6 witness block: left edge 5, right edge 35. -/
def lineC6b : Line :=
  ⟨⟨5, 20, 35, 30⟩, TextDirection.LEFT_RIGHT, [Span.textSpan ⟨5, 20, 35, 30⟩ 1]⟩

/-- C6 witness block: left edges aligned at 5, right edges 15 vs 35. -/
def blkC6 : TextBlock :=
  ⟨⟨5, 0, 35, 30⟩, [lineC6a, lineC6b], TextAlignment.CENTER, 0, 0, 0, 0, 0⟩

/-- C6 witness page box. -/
def pageC6 : BBox := ⟨0, 0, 100, 100⟩

/-- C6, witness: with tolerance `DM = 1` the left edges (both 5) are
aligned, the right edges (15 vs 35) are not; `set_alignment` returns LEFT
with `left_space` equal to the leading margin `5 - 0 = 5`. -/
theorem C6_left_aligned_witness :
    (blkC6.lines = lineC6a :: [lineC6b] ∧
     |maxList (lineC6a.bbox.get (leadIdx blkC6))
        ([lineC6b].map fun x => x.bbox.get (leadIdx blkC6)) -
      minList (lineC6a.bbox.get (leadIdx blkC6))
        ([lineC6b].map fun x => x.bbox.get (leadIdx blkC6))| ≤ 1 ∧
     ¬ |maxList (lineC6a.bbox.get (trailIdx blkC6))
          ([lineC6b].map fun x => x.bbox.get (trailIdx blkC6)) -
        minList (lineC6a.bbox.get (trailIdx blkC6))
          ([lineC6b].map fun x => x.bbox.get (trailIdx blkC6))| ≤ 1) ∧
    (∃ b', blkC6.set_alignment 1 pageC6 = some b' ∧
      b'.alignment = TextAlignment.LEFT ∧
      b'.left_space =
        (blkC6.bbox.get (leadIdx blkC6) - pageC6.get (leadIdx blkC6)) *
          flowSign blkC6) := by
  have hlead : leadIdx blkC6 = 0 := by decide
  have htrail : trailIdx blkC6 = 2 := by decide
  have hleft : |maxList (lineC6a.bbox.get (leadIdx blkC6))
      ([lineC6b].map fun x => x.bbox.get (leadIdx blkC6)) -
    minList (lineC6a.bbox.get (leadIdx blkC6))
      ([lineC6b].map fun x => x.bbox.get (leadIdx blkC6))| ≤ 1 := by
    rw [hlead]
    norm_num [maxList, minList, lineC6a, lineC6b, BBox.get]
  have hright : ¬ |maxList (lineC6a.bbox.get (trailIdx blkC6))
        ([lineC6b].map fun x => x.bbox.get (trailIdx blkC6)) -
      minList (lineC6a.bbox.get (trailIdx blkC6))
        ([lineC6b].map fun x => x.bbox.get (trailIdx blkC6))| ≤ 1 := by
    rw [htrail]
    norm_num [maxList, minList, lineC6a, lineC6b, BBox.get]
  exact ⟨⟨rfl, hleft, hright⟩,
    C6_left_aligned 1 blkC6 pageC6 lineC6a [lineC6b] rfl hleft hright⟩

/-- The empty block: no lines at all (zero row count). -/
def blkEmpty : TextBlock :=
  ⟨⟨0, 0, 0, 0⟩, [], TextAlignment.LEFT, 0, 0, 0, 0, 0⟩

/-- C8, counterexample: on a block with no lines, `set_alignment` (Python:
`max([])` raises `ValueError`) and `parse_line_spacing` (Python:
`self.lines[0]` raises `IndexError`) both fail — modelled as `none` — so
the zero-row-count case is NOT handled by a fallback branch. -/
theorem C8_counterexample :
    TextBlock.set_alignment 1 blkEmpty pageC6 = none ∧
    TextBlock.parse_line_spacing predT blkEmpty = none :=
  ⟨rfl, rfl⟩

/-- C8, amended: for every block with at least one line, `set_alignment`
and `parse_line_spacing` terminate normally (no exception escapes: the
result is `some`), for every tolerance, page box and same-row collaborator;
zero-area bboxes and single-line blocks are covered.  A block with zero
lines, however, raises in both. -/
theorem C8_amended (DM : ℚ) (sameRow : Line → Line → Bool) (b : TextBlock)
    (page : BBox) (hne : b.lines ≠ []) :
    (TextBlock.set_alignment DM b page).isSome = true ∧
    (TextBlock.parse_line_spacing sameRow b).isSome = true := by
  obtain ⟨l, ls, hl⟩ := List.exists_cons_of_ne_nil hne
  constructor
  · simp only [TextBlock.set_alignment, hl]
    repeat' split
    all_goals rfl
  · rw [parse_line_spacing_eq sameRow b l ls hl]
    rfl

/-- Degenerate block for the C8 witness: one line, zero-area bbox. -/
def blkC8w : TextBlock :=
  ⟨⟨3, 4, 3, 4⟩,
   [⟨⟨3, 4, 3, 4⟩, TextDirection.LEFT_RIGHT, [Span.textSpan ⟨3, 4, 3, 4⟩ 0]⟩],
   TextAlignment.LEFT, 0, 0, 0, 0, 0⟩

/-- C8, witness: a single-line zero-area block goes through both methods
without failure. -/
theorem C8_amended_witness :
    blkC8w.lines ≠ [] ∧
    ((TextBlock.set_alignment 1 blkC8w pageC6).isSome = true ∧
     (TextBlock.parse_line_spacing predT blkC8w).isSome = true) :=
  ⟨by decide, C8_amended 1 predT blkC8w pageC6 (by decide)⟩

/-- Helper: with pairwise distinct lines (Python compares them by object
identity, so list entries are distinct objects), the emission loop of
`make_docx` agrees with the spec-side emission. -/
theorem makeDocxLoop_eq_spec (sameRow : Line → Line → Bool)
    (lines : List Line) :
    ∀ (hne : lines ≠ []) (hnd : lines.Nodup),
      makeDocxLoop sameRow (lines.getLast hne) lines =
        makeDocxSpec sameRow lines := by
  induction lines with
  | nil => intro hne _; exact absurd rfl hne
  | cons l rest ih =>
    intro hne hnd
    cases rest with
    | nil =>
      simp [makeDocxLoop, makeDocxSpec, List.getLast]
    | cons l2 rest2 =>
      have hne2 : l2 :: rest2 ≠ [] := by simp
      have hlast : (l :: l2 :: rest2).getLast hne = (l2 :: rest2).getLast hne2 :=
        rfl
      have hmem : (l2 :: rest2).getLast hne2 ∈ l2 :: rest2 :=
        List.getLast_mem hne2
      have hnotmem : l ∉ l2 :: rest2 := (List.nodup_cons.mp hnd).1
      have hl_ne : ¬ l = (l :: l2 :: rest2).getLast hne := by
        rw [hlast]
        intro hEq
        exact hnotmem (hEq ▸ hmem)
      rw [makeDocxLoop, makeDocxSpec, if_neg hl_ne, hlast,
        ih hne2 (List.nodup_cons.mp hnd).2]

/-- C7: for a block whose lines are pairwise distinct, `make_docx` emits
exactly the spec-side sequence: each line's spans in order, with an
explicit line break after every line except the last line and except a
line whose immediate successor is in the same row. -/
theorem C7_explicit_line_breaks (sameRow : Line → Line → Bool)
    (b : TextBlock) (hnd : b.lines.Nodup) :
    b.make_docx sameRow = makeDocxSpec sameRow b.lines := by
  cases hl : b.lines with
  | nil => simp [TextBlock.make_docx, hl, makeDocxSpec]
  | cons l ls =>
    have hnd' : (l :: ls).Nodup := hl ▸ hnd
    simp only [TextBlock.make_docx, hl]
    exact makeDocxLoop_eq_spec sameRow (l :: ls) (by simp) hnd'

/-- C7, witness: on the concrete two-line block the code-side emission and
the spec-side emission coincide (with a break after the first line when
the two lines are not in the same row). -/
theorem C7_explicit_line_breaks_witness :
    blkC1.lines.Nodup ∧
    blkC1.make_docx predF = makeDocxSpec predF blkC1.lines ∧
    blkC1.make_docx predF =
      [DocxItem.spanRun (Span.textSpan ⟨0, 0, 10, 10⟩ 0), DocxItem.lineBreak,
       DocxItem.spanRun (Span.textSpan ⟨40, 0, 50, 10⟩ 1)] :=
  ⟨by decide, C7_explicit_line_breaks predF blkC1 (by decide), by decide⟩

/-- Helper: `formatStep` skips (returns its accumulator unchanged on) every
shape that is already attributed or does not intersect the block. -/
theorem formatStep_skip (splitSpan : Span → Shape → Bool → List Span)
    (DR : BBox) (acc : TextBlock × Bool) (rect : Shape)
    (h : rect.rect_type ≠ RectType.UNDEFINED ∨
      acc.1.bbox.intersects rect.bbox = false) :
    formatStep splitSpan DR acc rect = acc := by
  rw [formatStep]
  rcases h with h1 | h2
  · rw [if_pos h1]
  · by_cases h1 : rect.rect_type ≠ RectType.UNDEFINED
    · rw [if_pos h1]
    · rw [if_neg h1, if_pos (by simp [h2])]

/-- C9: if every shape in the list is already attributed (type not
UNDEFINED) or has a bbox not intersecting the block's bbox, then
`parse_text_format` leaves the whole block — in particular every line's
span sequence — unchanged; only undecided intersecting shapes can cause
any replacement. -/
theorem C9_attributed_or_disjoint_shapes_no_change
    (splitSpan : Span → Shape → Bool → List Span) (DR : BBox)
    (b : TextBlock) (rects : List Shape)
    (hfilter : ∀ r ∈ rects, r.rect_type ≠ RectType.UNDEFINED ∨
      b.bbox.intersects r.bbox = false) :
    (TextBlock.parse_text_format splitSpan DR b rects).1 = b ∧
    (TextBlock.parse_text_format splitSpan DR b rects).1.lines = b.lines := by
  have key : ∀ (rs : List Shape) (flag : Bool),
      (∀ r ∈ rs, r.rect_type ≠ RectType.UNDEFINED ∨
        b.bbox.intersects r.bbox = false) →
      rs.foldl (formatStep splitSpan DR) (b, flag) = (b, flag) := by
    intro rs
    induction rs with
    | nil => intro flag _; rfl
    | cons r rs2 ih =>
      intro flag hf
      rw [List.foldl_cons,
        formatStep_skip splitSpan DR (b, flag) r (hf r (by simp)),
        ih flag (fun x hx => hf x (by simp [hx]))]
  rw [TextBlock.parse_text_format, key rects false hfilter]
  exact ⟨rfl, rfl⟩

/-- An already-attributed shape overlapping the C9 witness block. -/
def shapeAttributed : Shape := ⟨⟨0, 0, 20, 20⟩, RectType.HIGHLIGHT⟩

/-- An undecided shape far away from the C9 witness block. -/
def shapeFar : Shape := ⟨⟨200, 200, 210, 210⟩, RectType.UNDEFINED⟩

/-- C9, witness: an attributed overlapping shape and an undecided
non-intersecting shape leave the concrete block untouched. -/
theorem C9_attributed_or_disjoint_shapes_no_change_witness :
    (∀ r ∈ [shapeAttributed, shapeFar],
      r.rect_type ≠ RectType.UNDEFINED ∨
      blkC6.bbox.intersects r.bbox = false) ∧
    ((TextBlock.parse_text_format (fun _ _ _ => []) ⟨-1, -1, 1, 1⟩ blkC6
        [shapeAttributed, shapeFar]).1 = blkC6 ∧
     (TextBlock.parse_text_format (fun _ _ _ => []) ⟨-1, -1, 1, 1⟩ blkC6
        [shapeAttributed, shapeFar]).1.lines = blkC6.lines) :=
  ⟨by decide,
   C9_attributed_or_disjoint_shapes_no_change (fun _ _ _ => [])
     ⟨-1, -1, 1, 1⟩ blkC6 [shapeAttributed, shapeFar] (by decide)⟩
